import Mathlib

/-!
Shallow embedding of the fixture-driven C++ test harness (tester.cpp).

The harness discovers numbered test cases in a fixture directory, runs each
case through an externally supplied solution routine, compares the routine's
output with a stored expected value, and reports pass counts and an exit code.

Modelling choices:
* a directory is a list of entries (filename plus a regular-file flag); a
  missing or non-directory path is the value none;
* the file store seen by the runner is a function from path strings to
  optional contents (none = the file does not exist / cannot be opened);
* the solution routine is a function returning Except String Int: an error
  value models a thrown std exception whose what() is the carried string;
* machine ints are Int with the int range checked explicitly where the
  C++ library checks it (stoi throws out_of_range, stream extraction clamps).
-/

/-- One entry of the fixture directory: its filename and whether it is a
regular file (directory iteration in the code looks only at these). -/
structure DirEntry where
  name : String
  regular : Bool
  deriving DecidableEq

/-- Whitespace set of isspace in the C locale, used both by stoi's strtol
skip and by formatted stream extraction's skipws. -/
def isStreamWS (c : Char) : Bool :=
  c = ' ' || c = '\t' || c = '\n' || c = '\x0b' || c = '\x0c' || c = '\r'

/-- Value of a block of decimal digits, most significant first. -/
def digitsVal (ds : List Char) : Nat :=
  ds.foldl (fun a c => 10 * a + (c.toNat - 48)) 0

/-- Largest int value on the target platform (32-bit int). -/
def intMax : Int := 2147483647

/-- Smallest int value on the target platform (32-bit int). -/
def intMin : Int := -2147483648

/-- Digit phase of std::stoi: greedily take decimal digits after the sign;
no digit at all is invalid_argument, a value outside int range is
out_of_range; both exceptions make the caller skip the filename, so both
are none here. -/
def stoiNum (sign : Int) (cs : List Char) : Option Int :=
  let ds := cs.takeWhile Char.isDigit
  if ds.isEmpty then none
  else
    let v := sign * (digitsVal ds : Int)
    if v > intMax ∨ v < intMin then none else some v

/-- Model of std::stoi on a character list (base 10, strtol semantics):
skip leading whitespace, optional single sign, then digits; trailing
non-digit characters are ignored. -/
def stoiChars (cs : List Char) : Option Int :=
  match cs.dropWhile isStreamWS with
  | [] => none
  | '+' :: r => stoiNum 1 r
  | '-' :: r => stoiNum (-1) r
  | r => stoiNum 1 r

/-- Digit phase of stream int extraction: like stoi but failure stores 0
with failbit (false), and an out-of-range value stores the clamped bound
with failbit, as num_get does since C++11. -/
def extractDigits (sign : Int) (cs : List Char) : Int × Bool :=
  let ds := cs.takeWhile Char.isDigit
  if ds.isEmpty then (0, false)
  else
    let v := sign * (digitsVal ds : Int)
    if v > intMax then (intMax, false)
    else if v < intMin then (intMin, false)
    else (v, true)

/-- Model of a formatted stream read of an int from the remaining stream
characters: skip whitespace, optional sign, digits.  The pair is the value
stored into the variable and the success flag (stream still good).  In the
fully-empty case the C++ extraction leaves the variable untouched
(uninitialized in tester.cpp); it is modelled as 0 here, the same value
num_get stores on an ordinary parse failure. -/
def extractInt (cs : List Char) : Int × Bool :=
  match cs.dropWhile isStreamWS with
  | [] => (0, false)
  | '+' :: r => extractDigits 1 r
  | '-' :: r => extractDigits (-1) r
  | r => extractDigits 1 r

/-- Test for a character other than the extension separator. -/
def notDot (c : Char) : Bool := c ≠ '.'

/-- Splitting a filename into stem and extension per std::filesystem::path:
the extension starts at the last dot unless that dot is the first character
of the filename (then there is no extension).  The result is
(stem characters, extension characters including the dot). -/
def stemExt (cs : List Char) : List Char × List Char :=
  if (cs.reverse.takeWhile notDot).length + 1 < cs.length then
    ((cs.reverse.drop ((cs.reverse.takeWhile notDot).length + 1)).reverse,
      '.' :: (cs.reverse.takeWhile notDot).reverse)
  else (cs, [])

/-- Selection made inside the discovery loop of find_test_cases: a directory
entry contributes the stoi of its stem when it is a regular file with
extension ".in"; otherwise (including a stoi exception) it is ignored. -/
def entryNum (e : DirEntry) : Option Int :=
  if e.regular = true ∧ (stemExt e.name.data).2 = ".in".data then
    stoiChars (stemExt e.name.data).1
  else none

/-- The sorted vector case_numbers built by find_test_cases: the parsed
numbers of all selected entries, sorted ascending (std::sort on int). -/
def discovered_case_numbers (d : Option (List DirEntry)) : List Int :=
  match d with
  | none => []
  | some es => List.insertionSort (· ≤ ·) (es.filterMap entryNum)

/-- find_test_cases of tester.cpp: empty when the directory is missing or
not a directory, otherwise the decimal names (std::to_string) of the sorted
parsed case numbers. -/
def find_test_cases (d : Option (List DirEntry)) : List String :=
  (discovered_case_numbers d).map (fun n => toString n)

/-- The trailing-whitespace set of trim_trailing (" \n\r\t"). -/
def isTrimWS (c : Char) : Bool :=
  c = ' ' || c = '\n' || c = '\r' || c = '\t'

/-- trim_trailing of tester.cpp: erase from one past the last character not
in " \n\r\t" to the end (the whole string when every character is in the
set, since find_last_not_of returns npos and npos + 1 = 0). -/
def trim_trailing (s : String) : String :=
  String.mk ((s.data.reverse.dropWhile isTrimWS).reverse)

/-- The fixed fixture directory of tester.cpp. -/
def TESTS_DIR : String := "tests/"

/-- Observable result of run_test: its printed classification together with
the boolean it returns.  failedMismatch carries the diagnostic detail
printed under full logging (input text, the integer, expected, actual);
failedException carries the what() string of the caught exception. -/
inductive Outcome where
  | passed : Outcome
  | failedMismatch (inputText : String) (n : Int) (expected actual : String) : Outcome
  | failedException (message : String) : Outcome
  | skippedInput : Outcome
  | skippedOutput : Outcome
  deriving DecidableEq

/-- The boolean run_test returns for each outcome: true only for a pass. -/
def Outcome.toBool : Outcome → Bool
  | .passed => true
  | _ => false

/-- Whether the outcome is one of the FAILED reports. -/
def Outcome.isFailed : Outcome → Bool
  | .failedMismatch _ _ _ _ => true
  | .failedException _ => true
  | _ => false

/-- Model of std::getline on the remaining stream characters: the first
result is the line read (without its newline), the second is the rest of
the stream after the consumed newline. -/
def splitLine (cs : List Char) : List Char × List Char :=
  match cs with
  | [] => ([], [])
  | c :: rest =>
    if c = '\n' then ([], rest)
    else
      let p := splitLine rest
      (c :: p.1, p.2)

/-- The file store: contents by path, none when the file does not exist
(fs::exists false / stream open failure). -/
def FileStore : Type := String → Option String

/-- The external solution routine; an error value is a thrown exception
carrying its what() description. -/
def Solution : Type := String → Int → Except String Int

/-- Steps 2-4 of run_test after the input fixture has been parsed: check the
expected-output file exists (else SKIPPED), read and trim it, invoke the
solution (an exception becomes FAILED with the description), convert the
returned int to its decimal string, trim, and compare byte-exactly. -/
def run_test_rest (fs : FileStore) (sol : Solution) (case_name : String)
    (input_str : String) (input_int : Int) : Outcome :=
  match fs (TESTS_DIR ++ case_name ++ ".out") with
  | none => Outcome.skippedOutput
  | some out_content =>
    match sol input_str input_int with
    | Except.error msg => Outcome.failedException msg
    | Except.ok r =>
      if trim_trailing (toString r) = trim_trailing out_content then Outcome.passed
      else Outcome.failedMismatch input_str input_int
        (trim_trailing out_content) (trim_trailing (toString r))

/-- run_test of tester.cpp for one case name: resolve the in and out files
under tests/ by name, SKIPPED when the input cannot be opened, otherwise
getline the first line, extract an int from the remainder, and continue
with the comparison stage. -/
def run_test (fs : FileStore) (sol : Solution) (case_name : String) : Outcome :=
  match fs (TESTS_DIR ++ case_name ++ ".in") with
  | none => Outcome.skippedInput
  | some in_content =>
    run_test_rest fs sol case_name (String.mk (splitLine in_content.data).1)
      (extractInt (splitLine in_content.data).2).1

/-- The summary line printed by main. -/
def summaryLine (passed total : Nat) : String :=
  "Passed " ++ toString passed ++ " out of " ++ toString total ++ " tests."

/-- The notice printed by main when discovery finds nothing. -/
def noCasesNotice : String := "No test cases found in '" ++ TESTS_DIR ++ "'."

/-- Observable result of main: the process exit code, the no-cases notice
when printed, and the summary line when printed. -/
structure MainResult where
  exitCode : Nat
  notice : Option String
  summary : Option String

/-- Count of cases for which run_test returned true, as accumulated by the
loop in main. -/
def passedCount (d : Option (List DirEntry)) (fs : FileStore) (sol : Solution) : Nat :=
  (find_test_cases d).countP (fun c => (run_test fs sol c).toBool)

/-- Total number of discovered cases (test_cases.size() in main). -/
def totalCount (d : Option (List DirEntry)) : Nat :=
  (find_test_cases d).length

/-- main of tester.cpp: discover cases; with none, print the notice and
exit 0; otherwise run every case, print the summary, and exit 0 exactly
when every discovered case passed, else 1. -/
def main_run (d : Option (List DirEntry)) (fs : FileStore) (sol : Solution) : MainResult :=
  if (find_test_cases d).isEmpty then
    { exitCode := 0, notice := some noCasesNotice, summary := none }
  else
    { exitCode := if passedCount d fs sol = totalCount d then 0 else 1,
      notice := none,
      summary := some (summaryLine (passedCount d fs sol) (totalCount d)) }

/-! Helper lemmas about dropWhile and takeWhile, shared by several claims. -/

/-- The head of what dropWhile keeps never satisfies the predicate. -/
theorem head_of_dropWhile_all {α : Type} (p : α → Bool) (l : List α) :
    ((l.dropWhile p).head?.all fun a => !p a) = true := by
  induction l with
  | nil => rfl
  | cons x xs ih =>
    rw [List.dropWhile_cons]
    by_cases hx : p x = true
    · rw [if_pos hx]; exact ih
    · rw [if_neg hx]
      simp only [List.head?_cons, Option.all_some, Bool.not_eq_true']
      exact Bool.not_eq_true _ ▸ (Bool.of_not_eq_true hx)

/-- dropWhile is the identity when the head does not satisfy the predicate. -/
theorem dropWhile_eq_self_of_head_all {α : Type} (p : α → Bool) (l : List α)
    (h : (l.head?.all fun a => !p a) = true) : l.dropWhile p = l := by
  cases l with
  | nil => rfl
  | cons x xs =>
    have hx : p x = false := by simpa using h
    rw [List.dropWhile_cons, if_neg (by simp [hx])]

/-- dropWhile skips over a whole block of satisfying elements. -/
theorem dropWhile_append_of_all {α : Type} (p : α → Bool) {l1 : List α} (l2 : List α)
    (h : ∀ a ∈ l1, p a = true) : (l1 ++ l2).dropWhile p = l2.dropWhile p := by
  induction l1 with
  | nil => rfl
  | cons x xs ih =>
    rw [List.cons_append, List.dropWhile_cons, if_pos (h x (by simp))]
    exact ih (fun a ha => h a (by simp [ha]))

/-- Every list splits as the reversed dropWhile of its reverse followed by
the reversed takeWhile of its reverse. -/
theorem reverse_dropWhile_append {α : Type} (p : α → Bool) (l : List α) :
    (l.reverse.dropWhile p).reverse ++ (l.reverse.takeWhile p).reverse = l := by
  rw [← List.reverse_append, List.takeWhile_append_dropWhile, List.reverse_reverse]

/-- Splitting a filename built from a nonempty stem and the literal
extension chars of ".in" recovers exactly that stem and extension. -/
theorem stemExt_append_in (l : List Char) (hne : l ≠ []) :
    stemExt (l ++ ['.', 'i', 'n']) = (l, ['.', 'i', 'n']) := by
  unfold stemExt
  have hrev : (l ++ ['.', 'i', 'n']).reverse = 'n' :: 'i' :: '.' :: l.reverse := by
    simp [List.reverse_append]
  have hafter : List.takeWhile notDot ('n' :: 'i' :: '.' :: l.reverse) = ['n', 'i'] := by
    rw [List.takeWhile_cons, if_pos (by decide), List.takeWhile_cons, if_pos (by decide),
      List.takeWhile_cons, if_neg (by decide)]
  rw [hrev, hafter]
  have hlen : (['n', 'i'] : List Char).length + 1 < (l ++ ['.', 'i', 'n']).length := by
    have := List.length_pos.mpr hne
    simp only [List.length_append, List.length_cons, List.length_nil]
    omega
  rw [if_pos hlen]
  simp

/-- Unfolding of run_test when the input file opens: the runner parses the
first line and the integer token and moves on to the comparison stage. -/
theorem run_test_eq_of_input (fs : FileStore) (sol : Solution) (name content : String)
    (h : fs (TESTS_DIR ++ name ++ ".in") = some content) :
    run_test fs sol name =
      run_test_rest fs sol name (String.mk (splitLine content.data).1)
        (extractInt (splitLine content.data).2).1 := by
  unfold run_test
  rw [h]

/-- Unfolding of run_test when the input file is missing. -/
theorem run_test_eq_of_no_input (fs : FileStore) (sol : Solution) (name : String)
    (h : fs (TESTS_DIR ++ name ++ ".in") = none) :
    run_test fs sol name = Outcome.skippedInput := by
  unfold run_test
  rw [h]

/-- Unfolding of the comparison stage when the expected-output file is
missing. -/
theorem run_test_rest_eq_of_no_output (fs : FileStore) (sol : Solution)
    (name istr : String) (i : Int)
    (h : fs (TESTS_DIR ++ name ++ ".out") = none) :
    run_test_rest fs sol name istr i = Outcome.skippedOutput := by
  unfold run_test_rest
  rw [h]

/-- Unfolding of the comparison stage when the solution raises a fault. -/
theorem run_test_rest_eq_of_error (fs : FileStore) (sol : Solution)
    (name istr out_content msg : String) (i : Int)
    (hout : fs (TESTS_DIR ++ name ++ ".out") = some out_content)
    (hsol : sol istr i = Except.error msg) :
    run_test_rest fs sol name istr i = Outcome.failedException msg := by
  unfold run_test_rest
  rw [hout, hsol]

/-- Unfolding of the comparison stage when the solution returns a value. -/
theorem run_test_rest_eq_of_ok (fs : FileStore) (sol : Solution)
    (name istr out_content : String) (i r : Int)
    (hout : fs (TESTS_DIR ++ name ++ ".out") = some out_content)
    (hsol : sol istr i = Except.ok r) :
    run_test_rest fs sol name istr i =
      if trim_trailing (toString r) = trim_trailing out_content then Outcome.passed
      else Outcome.failedMismatch istr i
        (trim_trailing out_content) (trim_trailing (toString r)) := by
  unfold run_test_rest
  rw [hout, hsol]

/-- Claim C7: the trim operation removes only a trailing run of characters
from the set space, tab, carriage return, newline: the original string is
the trimmed result followed by a run of such characters, the trimmed result
does not end in one, and a string not ending in one is left unchanged. -/
theorem trim_trailing_only_trailing (s : String) :
    (∃ t : List Char, s.data = (trim_trailing s).data ++ t ∧ t.all isTrimWS = true) ∧
    ((trim_trailing s).data.getLast?.all fun c => !isTrimWS c) = true ∧
    ((s.data.getLast?.all fun c => !isTrimWS c) = true → trim_trailing s = s) := by
  refine ⟨⟨(s.data.reverse.takeWhile isTrimWS).reverse, ?_, ?_⟩, ?_, ?_⟩
  · exact (reverse_dropWhile_append isTrimWS s.data).symm
  · rw [List.all_eq_true]
    intro c hc
    rw [List.mem_reverse] at hc
    exact List.mem_takeWhile_imp hc
  · show (((s.data.reverse.dropWhile isTrimWS).reverse).getLast?.all fun c => !isTrimWS c) = true
    rw [List.getLast?_reverse]
    exact head_of_dropWhile_all isTrimWS s.data.reverse
  · intro h
    apply String.ext
    show (s.data.reverse.dropWhile isTrimWS).reverse = s.data
    rw [dropWhile_eq_self_of_head_all isTrimWS s.data.reverse (by rw [List.head?_reverse]; exact h)]
    exact s.data.reverse_reverse

/-- Witness for C7 at a concrete string with no trailing whitespace. -/
theorem trim_trailing_only_trailing_witness :
    (("ab" : String).data.getLast?.all fun c => !isTrimWS c) = true ∧
    trim_trailing "ab" = "ab" :=
  ⟨by decide, (trim_trailing_only_trailing "ab").2.2 (by decide)⟩

/-- Claim C1: the exit status is 0 exactly when the number of passed cases
equals the number of discovered cases and 1 otherwise, so it is nonzero
whenever strictly fewer cases passed than were discovered. -/
theorem main_exit_status_iff (d : Option (List DirEntry)) (fs : FileStore) (sol : Solution) :
    (main_run d fs sol).exitCode = (if passedCount d fs sol = totalCount d then 0 else 1) ∧
    ((main_run d fs sol).exitCode = 0 ↔ passedCount d fs sol = totalCount d) ∧
    (passedCount d fs sol < totalCount d → (main_run d fs sol).exitCode = 1) := by
  unfold main_run
  by_cases h : (find_test_cases d).isEmpty
  · rw [if_pos h]
    rw [List.isEmpty_iff] at h
    unfold passedCount totalCount
    rw [h]
    simp
  · rw [if_neg h]
    refine ⟨rfl, ?_, ?_⟩
    · constructor
      · intro h0
        by_contra hne
        rw [if_neg hne] at h0
        exact one_ne_zero h0
      · intro he
        simp [he]
    · intro hlt
      simp [Nat.ne_of_lt hlt]

/-- Witness for C1: a single discovered case with a missing expected-output
file passes 0 of 1 cases and the exit status is 1. -/
theorem main_exit_status_iff_witness :
    passedCount (some [⟨"2.in", true⟩])
        (fun p => if p = "tests/2.in" then some "x\n1\n" else none)
        (fun _ n => Except.ok n) <
      totalCount (some [⟨"2.in", true⟩]) ∧
    (main_run (some [⟨"2.in", true⟩])
        (fun p => if p = "tests/2.in" then some "x\n1\n" else none)
        (fun _ n => Except.ok n)).exitCode = 1 :=
  ⟨by decide,
    (main_exit_status_iff (some [⟨"2.in", true⟩])
      (fun p => if p = "tests/2.in" then some "x\n1\n" else none)
      (fun _ n => Except.ok n)).2.2 (by decide)⟩

/-- Claim C9: whenever discovery returns no cases the main driver prints the
no-cases notice and exits with status 0; a missing or non-directory fixture
path is one such run. -/
theorem zero_cases_exit_zero (d : Option (List DirEntry)) (fs : FileStore) (sol : Solution) :
    (find_test_cases d = [] →
      (main_run d fs sol).exitCode = 0 ∧
      (main_run d fs sol).notice = some noCasesNotice) ∧
    find_test_cases none = [] := by
  constructor
  · intro h
    unfold main_run
    rw [if_pos (List.isEmpty_iff.mpr h)]
    exact ⟨rfl, rfl⟩
  · rfl

/-- Witness for C9 at the missing-directory run. -/
theorem zero_cases_exit_zero_witness :
    (main_run none (fun _ => none) (fun _ n => Except.ok n)).exitCode = 0 ∧
    (main_run none (fun _ => none) (fun _ n => Except.ok n)).notice = some noCasesNotice :=
  (zero_cases_exit_zero none (fun _ => none) (fun _ n => Except.ok n)).1 rfl

/-- Counterexample to C2 as stated: with the two regular files named 1.in
and 01.in the discoverer returns the name 1 twice, so the returned sequence
is not duplicate-free. -/
theorem find_test_cases_duplicates_cex :
    find_test_cases (some [⟨"1.in", true⟩, ⟨"01.in", true⟩]) = ["1", "1"] ∧
    ¬ (find_test_cases (some [⟨"1.in", true⟩, ⟨"01.in", true⟩])).Nodup := by
  constructor
  · decide
  · decide

/-- Claim C2 as amended: the discovered case-number sequence is sorted
ascending and the returned names are its decimal forms in that order, but
distinct filenames parsing to the same integer produce duplicate
identifiers (the code never deduplicates). -/
theorem find_test_cases_sorted_of_numbers (d : Option (List DirEntry)) :
    List.Sorted (· ≤ ·) (discovered_case_numbers d) ∧
    find_test_cases d = (discovered_case_numbers d).map (fun n => toString n) := by
  refine ⟨?_, rfl⟩
  cases d with
  | none => exact List.sorted_nil
  | some es => exact List.sorted_insertionSort _ _

/-- Counterexample to C3 as stated: the stem 1abc is not excluded; stoi
parses its leading digit and the file is discovered as case 1. -/
theorem discovery_digit_stem_included_cex :
    find_test_cases (some [⟨"1abc.in", true⟩]) = ["1"] ∧
    find_test_cases (some [⟨"1abc.in", true⟩]) ≠ [] := by
  constructor
  · decide
  · decide

/-- Claim C3 as amended: a case number is discovered exactly when some
regular directory entry has extension ".in" and a stem accepted by stoi
(optional leading whitespace and sign followed by at least one digit, value
within int range, trailing non-digits ignored); only stems with no such
integer prefix are excluded. -/
theorem discovery_filter_iff (es : List DirEntry) (n : Int) :
    n ∈ discovered_case_numbers (some es) ↔
      ∃ e ∈ es, e.regular = true ∧ (stemExt e.name.data).2 = ".in".data ∧
        stoiChars (stemExt e.name.data).1 = some n := by
  unfold discovered_case_numbers
  rw [(List.perm_insertionSort _ _).mem_iff, List.mem_filterMap]
  constructor
  · rintro ⟨e, he, hn⟩
    unfold entryNum at hn
    by_cases hc : e.regular = true ∧ (stemExt e.name.data).2 = ".in".data
    · rw [if_pos hc] at hn
      exact ⟨e, he, hc.1, hc.2, hn⟩
    · rw [if_neg hc] at hn
      exact absurd hn (by simp)
  · rintro ⟨e, he, hr, hext, hp⟩
    refine ⟨e, he, ?_⟩
    unfold entryNum
    rw [if_pos ⟨hr, hext⟩]
    exact hp

/-- Counterexample to C4 as stated: with input file content whose token
after the first line is the non-numeric xyz, the runner does not stop with
a Failed parse outcome; the stream read stores 0, the solution is invoked
with n equal to 0, and the comparison can even report the case Passed. -/
theorem run_test_parse_fault_passes_cex :
    run_test
        (fun p => if p = "tests/9.in" then some "hello\nxyz"
          else if p = "tests/9.out" then some "5\n" else none)
        (fun _ n => Except.ok (n + 5)) "9" = Outcome.passed ∧
    Outcome.passed.isFailed = false := by
  constructor
  · decide
  · decide

/-- Claim C4 as amended: when the characters after the first input line
carry no parseable integer token, the stream extraction fails storing 0 and
the runner proceeds, without crashing, to the expected-output check and
comparison exactly as if the integer 0 had been read; the outcome is
whatever that comparison stage yields, not necessarily Failed. -/
theorem run_test_parse_fault_proceeds (fs : FileStore) (sol : Solution)
    (name content : String) :
    fs (TESTS_DIR ++ name ++ ".in") = some content →
    extractInt (splitLine content.data).2 = (0, false) →
    run_test fs sol name =
      run_test_rest fs sol name (String.mk (splitLine content.data).1) 0 := by
  intro hin hext
  rw [run_test_eq_of_input fs sol name content hin, hext]

/-- Witness for C4 at a concrete fixture whose second token is zz. -/
theorem run_test_parse_fault_proceeds_witness :
    run_test
        (fun p => if p = "tests/4.in" then some "hi\nzz"
          else if p = "tests/4.out" then some "0\n" else none)
        (fun _ n => Except.ok n) "4" =
      run_test_rest
        (fun p => if p = "tests/4.in" then some "hi\nzz"
          else if p = "tests/4.out" then some "0\n" else none)
        (fun _ n => Except.ok n) "4"
        (String.mk (splitLine ("hi\nzz" : String).data).1) 0 :=
  run_test_parse_fault_proceeds
    (fun p => if p = "tests/4.in" then some "hi\nzz"
      else if p = "tests/4.out" then some "0\n" else none)
    (fun _ n => Except.ok n) "4" "hi\nzz" (by decide) (by decide)

/-- Claim C5: a fault raised by the solution routine is caught at the case
boundary and becomes a Failed outcome carrying the fault description, and
with any solution the reporter still completes every run with either the
no-cases notice or a full summary. -/
theorem solution_fault_caught (fs : FileStore) (sol : Solution)
    (name content out_content msg : String) :
    fs (TESTS_DIR ++ name ++ ".in") = some content →
    fs (TESTS_DIR ++ name ++ ".out") = some out_content →
    sol (String.mk (splitLine content.data).1) (extractInt (splitLine content.data).2).1 =
      Except.error msg →
    run_test fs sol name = Outcome.failedException msg ∧
    (run_test fs sol name).isFailed = true ∧
    ∀ d, (main_run d fs sol).notice = some noCasesNotice ∨
      (main_run d fs sol).summary =
        some (summaryLine (passedCount d fs sol) (totalCount d)) := by
  intro hin hout hsol
  have hrun : run_test fs sol name = Outcome.failedException msg := by
    rw [run_test_eq_of_input fs sol name content hin]
    exact run_test_rest_eq_of_error fs sol name _ out_content msg _ hout hsol
  refine ⟨hrun, by rw [hrun]; rfl, ?_⟩
  intro d
  unfold main_run
  by_cases h : (find_test_cases d).isEmpty
  · rw [if_pos h]
    exact Or.inl rfl
  · rw [if_neg h]
    exact Or.inr rfl

/-- Witness for C5 at a concrete case whose solution routine always
throws an exception described by the string boom. -/
theorem solution_fault_caught_witness :
    run_test
        (fun p => if p = "tests/3.in" then some "t\n1\n"
          else if p = "tests/3.out" then some "1\n" else none)
        (fun _ _ => Except.error "boom") "3" = Outcome.failedException "boom" ∧
    (run_test
        (fun p => if p = "tests/3.in" then some "t\n1\n"
          else if p = "tests/3.out" then some "1\n" else none)
        (fun _ _ => Except.error "boom") "3").isFailed = true ∧
    ∀ d, (main_run d
        (fun p => if p = "tests/3.in" then some "t\n1\n"
          else if p = "tests/3.out" then some "1\n" else none)
        (fun _ _ => Except.error "boom")).notice = some noCasesNotice ∨
      (main_run d
        (fun p => if p = "tests/3.in" then some "t\n1\n"
          else if p = "tests/3.out" then some "1\n" else none)
        (fun _ _ => Except.error "boom")).summary =
        some (summaryLine
          (passedCount d
            (fun p => if p = "tests/3.in" then some "t\n1\n"
              else if p = "tests/3.out" then some "1\n" else none)
            (fun _ _ => Except.error "boom"))
          (totalCount d)) :=
  solution_fault_caught
    (fun p => if p = "tests/3.in" then some "t\n1\n"
      else if p = "tests/3.out" then some "1\n" else none)
    (fun _ _ => Except.error "boom") "3" "t\n1\n" "1\n" "boom"
    (by decide) (by decide) rfl

/-- Claim C6: a discovered case with an input file but no expected-output
file is Skipped, not Failed; it contributes false to the pass count yet
counts in the total, so when it is the only discovered case the run
reports passing 0 of 1 tests and exits with status 1. -/
theorem missing_output_skipped (fs : FileStore) (sol : Solution)
    (name content : String) (d : Option (List DirEntry)) :
    fs (TESTS_DIR ++ name ++ ".in") = some content →
    fs (TESTS_DIR ++ name ++ ".out") = none →
    run_test fs sol name = Outcome.skippedOutput ∧
    (run_test fs sol name).toBool = false ∧
    (find_test_cases d = [name] →
      (main_run d fs sol).exitCode = 1 ∧
      (main_run d fs sol).summary = some (summaryLine 0 1)) := by
  intro hin hout
  have hrun : run_test fs sol name = Outcome.skippedOutput := by
    rw [run_test_eq_of_input fs sol name content hin]
    exact run_test_rest_eq_of_no_output fs sol name _ _ hout
  refine ⟨hrun, by rw [hrun]; rfl, ?_⟩
  intro hd
  have hpassed : passedCount d fs sol = 0 := by
    unfold passedCount
    rw [hd, List.countP_cons, List.countP_nil, hrun]
    rfl
  have htotal : totalCount d = 1 := by
    unfold totalCount
    rw [hd]
    rfl
  have hne : ¬ (find_test_cases d).isEmpty = true := by
    rw [hd]
    exact Bool.false_ne_true
  unfold main_run
  rw [if_neg hne, hpassed, htotal]
  exact ⟨rfl, rfl⟩

/-- Witness for C6: a lone case 2 with input present and output absent is
skipped and the run exits 1 reporting 0 of 1. -/
theorem missing_output_skipped_witness :
    run_test (fun p => if p = "tests/2.in" then some "x\n5\n" else none)
        (fun _ n => Except.ok n) "2" = Outcome.skippedOutput ∧
    (run_test (fun p => if p = "tests/2.in" then some "x\n5\n" else none)
        (fun _ n => Except.ok n) "2").toBool = false ∧
    ((main_run (some [⟨"2.in", true⟩])
        (fun p => if p = "tests/2.in" then some "x\n5\n" else none)
        (fun _ n => Except.ok n)).exitCode = 1 ∧
      (main_run (some [⟨"2.in", true⟩])
        (fun p => if p = "tests/2.in" then some "x\n5\n" else none)
        (fun _ n => Except.ok n)).summary = some (summaryLine 0 1)) := by
  have h := missing_output_skipped
    (fun p => if p = "tests/2.in" then some "x\n5\n" else none)
    (fun _ n => Except.ok n) "2" "x\n5\n" (some [⟨"2.in", true⟩])
    (by decide) (by decide)
  exact ⟨h.1, h.2.1, h.2.2 (by decide)⟩

/-- Claim C8: when the expected-output file holds the decimal string 42
followed by any run of trailing whitespace characters and the solution
returns the integer 42, the trimmed canonical decimal form of the result
and the trimmed file content are byte-identical and the case passes,
whatever the trailing variation. -/
theorem round_trip_forty_two (fs : FileStore) (sol : Solution)
    (name content t : String) :
    fs (TESTS_DIR ++ name ++ ".in") = some content →
    fs (TESTS_DIR ++ name ++ ".out") = some ("42" ++ t) →
    t.data.all isTrimWS = true →
    sol (String.mk (splitLine content.data).1) (extractInt (splitLine content.data).2).1 =
      Except.ok 42 →
    trim_trailing (toString (42 : Int)) = trim_trailing ("42" ++ t) ∧
    run_test fs sol name = Outcome.passed := by
  intro hin hout ht hsol
  have htrim : trim_trailing ("42" ++ t) = "42" := by
    apply String.ext
    show ((("42" ++ t).data.reverse).dropWhile isTrimWS).reverse = ("42" : String).data
    rw [String.data_append, List.reverse_append,
      dropWhile_append_of_all isTrimWS _
        (fun a ha => List.all_eq_true.mp ht a (List.mem_reverse.mp ha))]
    rfl
  have heq : trim_trailing (toString (42 : Int)) = trim_trailing ("42" ++ t) := by
    rw [htrim]
    rfl
  refine ⟨heq, ?_⟩
  rw [run_test_eq_of_input fs sol name content hin,
    run_test_rest_eq_of_ok fs sol name _ ("42" ++ t) _ 42 hout hsol, if_pos heq]

/-- Witness for C8: expected output 42 with two trailing newlines and a
solution returning 42 yields a pass. -/
theorem round_trip_forty_two_witness :
    trim_trailing (toString (42 : Int)) = trim_trailing ("42" ++ "\n\n") ∧
    run_test
        (fun p => if p = "tests/1.in" then some "hello\n5\n"
          else if p = "tests/1.out" then some ("42" ++ "\n\n") else none)
        (fun _ _ => Except.ok 42) "1" = Outcome.passed :=
  round_trip_forty_two
    (fun p => if p = "tests/1.in" then some "hello\n5\n"
      else if p = "tests/1.out" then some ("42" ++ "\n\n") else none)
    (fun _ _ => Except.ok 42) "1" "hello\n5\n" "\n\n"
    (by decide) (by decide) (by decide) rfl

/-- Claim C10: a discovered name is the canonical decimal form of the
parsed stem, so a fixture whose stem is a non-canonical spelling of its
number is discovered under the canonical name; the runner then opens the
canonical input path, and when no file of the canonical name exists the
case is reported Skipped for a missing input even though the original
fixture file is on disk. -/
theorem noncanonical_stem_skipped (s : String) (n : Int) (fs : FileStore) (sol : Solution) :
    stoiChars s.data = some n →
    s.data ≠ [] →
    find_test_cases (some [⟨s ++ ".in", true⟩]) = [toString n] ∧
    (fs (TESTS_DIR ++ toString n ++ ".in") = none →
      run_test fs sol (toString n) = Outcome.skippedInput) := by
  intro hnum hne
  constructor
  · have hdata : ((s ++ ".in" : String)).data = s.data ++ ['.', 'i', 'n'] := by
      rw [String.data_append]
    have hst : stemExt ((s ++ ".in" : String)).data = (s.data, ['.', 'i', 'n']) := by
      rw [hdata]
      exact stemExt_append_in s.data hne
    have he : entryNum ⟨s ++ ".in", true⟩ = some n := by
      unfold entryNum
      rw [if_pos ⟨rfl, by rw [hst]⟩]
      rw [hst]
      exact hnum
    simp only [find_test_cases, discovered_case_numbers]
    rw [show List.filterMap entryNum [(⟨s ++ ".in", true⟩ : DirEntry)] = [n] by
      rw [List.filterMap_cons, he]; rfl]
    rfl
  · intro hfs
    exact run_test_eq_of_no_input fs sol (toString n) hfs

/-- Witness for C10: the lone fixture 007.in is discovered as case 7, and
with only tests/007.in on disk the runner skips case 7 for missing input. -/
theorem noncanonical_stem_skipped_witness :
    find_test_cases (some [⟨"007" ++ ".in", true⟩]) = [toString (7 : Int)] ∧
    run_test (fun p => if p = "tests/007.in" then some "x\n1\n" else none)
      (fun _ k => Except.ok k) (toString (7 : Int)) = Outcome.skippedInput := by
  have h := noncanonical_stem_skipped "007" 7
    (fun p => if p = "tests/007.in" then some "x\n1\n" else none)
    (fun _ k => Except.ok k) (by decide) (by decide)
  exact ⟨h.1, h.2 (by decide)⟩
